import Mathlib

/-!
Verification of the i18n routing subsystem of opennextjs-aws
(`packages/open-next/src/core/routing/i18n/index.ts`).

The module is embedded shallowly:

* JavaScript `undefined` is `Option.none`; nullish coalescing `a ?? b`
  becomes a `match` on the option.
* `NextConfig.i18n` (the process-wide configuration read by several
  functions) is threaded explicitly as a parameter `g : Option I18nConfig`;
  `detectLocale` additionally receives its own `i18n` argument, exactly as
  in the source.
* The external collaborators `acceptLanguage` (Language Matcher) and
  `constructNextUrl` (URL rewriter) are out of scope of the repository
  and are passed in as function parameters.
* Operations that can throw (a `TypeError` from calling `.toLowerCase()`
  on `undefined`) return `Option`, with `none` modelling the thrown error.
* JavaScript `s.split(sep)` with a one-character separator and no limit is
  `jsSplit`, realised through `List.splitOn` on the character list (the
  two have identical semantics for single-character separators);
  `domain.split(":", 1)[0]` is the text before the first colon, i.e. the
  head of the split, realised by `jsSplitFirst`.
-/

/-- JavaScript `s.split(c)` for a single-character separator `c`. -/
def jsSplit (s : String) (c : Char) : List String :=
  (s.toList.splitOn c).map List.asString

/-- JavaScript `s.split(c, 1)[0]`: the text before the first occurrence of
`c` (the whole string when `c` does not occur). -/
def jsSplitFirst (s : String) (c : Char) : String :=
  ((s.toList.splitOn c).headD []).asString

/-- JavaScript `s.toLowerCase()` on the ASCII range (locales and hostnames
are ASCII), realised characterwise so that it reduces definitionally. -/
def jsToLower (s : String) : String :=
  (s.toList.map Char.toLower).asString

/-- `DomainLocale` from `types/next-types`: a configured delivery domain.
`locales` and `http` are optional fields. -/
structure DomainLocale where
  domain : String
  defaultLocale : String
  locales : Option (List String)
  http : Option Bool
deriving Repr, DecidableEq

/-- `i18nConfig` from `types/next-types`. `localeDetection` and `domains`
are optional fields. -/
structure I18nConfig where
  locales : List String
  defaultLocale : String
  localeDetection : Option Bool
  domains : Option (List DomainLocale)
deriving Repr, DecidableEq

/-- The projection of `InternalEvent` used by this module: the raw path,
the full URL, the `host` and `accept-language` headers and the
`NEXT_LOCALE` cookie (absent entries are `none`). -/
structure InternalEvent where
  rawPath : String
  url : String
  host : Option String
  acceptLanguageHeader : Option String
  cookieNextLocale : Option String
deriving Repr, DecidableEq

/-- `InternalResult` as built by `handleLocaleRedirect`: `headers` holds the
single `Location` entry, `body` is the byte stream (`emptyReadableStream()`
is the empty list). -/
structure InternalResult where
  type : String
  statusCode : Nat
  location : String
  body : List Nat
  isBase64Encoded : Bool
deriving Repr, DecidableEq

/-- `emptyReadableStream()` from `utils/stream.js`: a zero-length body. -/
def emptyReadableStream : List Nat := []

/-- JavaScript template-literal interpolation of a possibly-undefined
string: `undefined` prints as `"undefined"`. -/
def jsStr : Option String → String
  | none => "undefined"
  | some s => s

/-- `isLocalizedPath(path)` (lines 10-14): `NextConfig.i18n?.locales
.includes(path.split("/")[1].toLowerCase()) ?? false`.  The optional chain
short-circuits before evaluating the argument when `i18n` is absent; when
`i18n` is present and `path.split("/")[1]` is `undefined` (no `/` in
`path`), `.toLowerCase()` throws, modelled as `none`. -/
def isLocalizedPath (g : Option I18nConfig) (path : String) : Option Bool :=
  match g with
  | none => some false
  | some i18n =>
    match (jsSplit path '/')[1]? with
    | none => none
    | some seg => some (i18n.locales.contains (jsToLower seg))

/-- `getLocaleFromCookie(cookies)` (lines 17-23): lowercase the
`NEXT_LOCALE` cookie if present; the truthiness test makes an empty cookie
value behave as absent; find the configured locale whose lowercased form
matches. -/
def getLocaleFromCookie (g : Option I18nConfig) (cookieNextLocale : Option String) :
    Option String :=
  match cookieNextLocale with
  | none => none
  | some c =>
    let nextLocale := jsToLower c
    if nextLocale = "" then none
    else
      match g with
      | none => none
      | some i18n => i18n.locales.find? (fun locale => nextLocale == jsToLower locale)

/-- The loop body of `detectDomainLocale` (lines 43-55): does `domain`
match the given `hostname` / lowercased locale?  Note the source compares
`hostname` verbatim (it is not lowercased) against the lowercased,
port-stripped configured domain. -/
def domainMatches (hostname : Option String) (lowercasedLocale : Option String)
    (domain : DomainLocale) : Bool :=
  let domainHostname := jsToLower (jsSplitFirst domain.domain ':')
  hostname == some domainHostname
    || lowercasedLocale == some (jsToLower domain.defaultLocale)
    || (match domain.locales with
        | none => false
        | some ls => ls.any (fun locale => lowercasedLocale == some (jsToLower locale)))

/-- `detectDomainLocale({hostname, detectedLocale})` (lines 30-56): first
configured domain matching by hostname, by default locale, or by locale
membership; `undefined` when no `domains` are configured or none match. -/
def detectDomainLocale (g : Option I18nConfig) (hostname : Option String)
    (detectedLocale : Option String) : Option DomainLocale :=
  match g with
  | none => none
  | some i18n =>
    match i18n.domains with
    | none => none
    | some domains =>
      let lowercasedLocale := detectedLocale.map jsToLower
      domains.find? (domainMatches hostname lowercasedLocale)

/-- `detectLocale(internalEvent, i18n)` (lines 64-93).  `accept` is the
external `acceptLanguage` collaborator.  The cookie and domain lookups go
through the global configuration `g`, exactly as in the source. -/
def detectLocale (g : Option I18nConfig)
    (accept : Option String → List String → Option String)
    (internalEvent : InternalEvent) (i18n : I18nConfig) : String :=
  let domainLocale := detectDomainLocale g internalEvent.host none
  if i18n.localeDetection = some false then
    match domainLocale with
    | some d => d.defaultLocale
    | none => i18n.defaultLocale
  else
    let cookiesLocale := getLocaleFromCookie g internalEvent.cookieNextLocale
    let preferredLocale := accept internalEvent.acceptLanguageHeader i18n.locales
    match domainLocale with
    | some d => d.defaultLocale
    | none =>
      match cookiesLocale with
      | some c => c
      | none =>
        match preferredLocale with
        | some p => p
        | none => i18n.defaultLocale

/-- `localizePath(internalEvent)` (lines 100-113): passthrough when i18n is
unconfigured or the path is already localized, otherwise prepend
`/${detectedLocale}`.  `none` models the `TypeError` propagating out of
`isLocalizedPath`. -/
def localizePath (g : Option I18nConfig)
    (accept : Option String → List String → Option String)
    (internalEvent : InternalEvent) : Option String :=
  match g with
  | none => some internalEvent.rawPath
  | some i18n =>
    match isLocalizedPath g internalEvent.rawPath with
    | none => none
    | some true => some internalEvent.rawPath
    | some false =>
      some ("/" ++ detectLocale g accept internalEvent i18n ++ internalEvent.rawPath)

/-- `handleLocaleRedirect(internalEvent)` (lines 121-178).  `cnu` is the
external `constructNextUrl` collaborator; the result is `none` for the
source's `false` (no redirect). -/
def handleLocaleRedirect (g : Option I18nConfig)
    (accept : Option String → List String → Option String)
    (cnu : String → String → String)
    (internalEvent : InternalEvent) : Option InternalResult :=
  match g with
  | none => none
  | some i18n =>
    if i18n.localeDetection = some false ∨ internalEvent.rawPath ≠ "/" then none
    else
      let preferredLocale := accept internalEvent.acceptLanguageHeader i18n.locales
      let detectedLocale := detectLocale g accept internalEvent i18n
      let domainLocale := detectDomainLocale g internalEvent.host none
      let preferredDomain := detectDomainLocale g none preferredLocale
      let domainBranch : Option InternalResult :=
        match domainLocale, preferredDomain with
        | some dl, some pd =>
          let isPDomain := pd.domain == dl.domain
          let isPLocale := some pd.defaultLocale == preferredLocale
          if ¬isPDomain ∨ ¬isPLocale then
            let scheme := "http" ++ (if pd.http = some true then "" else "s")
            let rlocale := if isPLocale then "" else jsStr preferredLocale
            some {
              type := "core"
              statusCode := 307
              location := scheme ++ "://" ++ pd.domain ++ "/" ++ rlocale
              body := emptyReadableStream
              isBase64Encoded := false
            }
          else none
        | _, _ => none
      match domainBranch with
      | some r => some r
      | none =>
        let defaultLocale :=
          match domainLocale with
          | some d => d.defaultLocale
          | none => i18n.defaultLocale
        if jsToLower detectedLocale ≠ jsToLower defaultLocale then
          some {
            type := "core"
            statusCode := 307
            location := cnu internalEvent.url ("/" ++ detectedLocale)
            body := emptyReadableStream
            isBase64Encoded := false
          }
        else none

/-! ## Reference definitions written from the specification's words -/

/-- Reference definition of locale detection, following the specification's
words: resolve `domainLocale` by hostname only; on the
`localeDetection === false` fast path return the domain default or the
configured default; otherwise the first defined value among domain default,
cookie locale, Accept-Language match and configured default. -/
def detectLocaleSpec (g : Option I18nConfig)
    (accept : Option String → List String → Option String)
    (ev : InternalEvent) (i18n : I18nConfig) : String :=
  let domainLocale := detectDomainLocale g ev.host none
  if i18n.localeDetection = some false then
    match domainLocale with
    | some d => d.defaultLocale
    | none => i18n.defaultLocale
  else
    (([domainLocale.map DomainLocale.defaultLocale,
       getLocaleFromCookie g ev.cookieNextLocale,
       accept ev.acceptLanguageHeader i18n.locales]).findSome? id).getD
      i18n.defaultLocale

/-- The domain-match predicate exactly as the specification words it: the
request hostname is **lowercased** before being compared with the stripped,
lowercased configured domain (the source compares the hostname verbatim). -/
def specDomainEntryMatches (hostname detectedLocale : Option String)
    (d : DomainLocale) : Prop :=
  hostname.map jsToLower = some (jsToLower (jsSplitFirst d.domain ':'))
    ∨ detectedLocale.map jsToLower = some (jsToLower d.defaultLocale)
    ∨ ∃ l ∈ d.locales.getD [], detectedLocale.map jsToLower = some (jsToLower l)

instance specDomainEntryMatchesDec (h dl : Option String) (d : DomainLocale) :
    Decidable (specDomainEntryMatches h dl d) := by
  unfold specDomainEntryMatches
  infer_instance

/-- The domain-match predicate of the source, in propositional form: the
hostname is compared verbatim. -/
def domainEntryMatches (hostname detectedLocale : Option String)
    (d : DomainLocale) : Prop :=
  hostname = some (jsToLower (jsSplitFirst d.domain ':'))
    ∨ detectedLocale.map jsToLower = some (jsToLower d.defaultLocale)
    ∨ ∃ l ∈ d.locales.getD [], detectedLocale.map jsToLower = some (jsToLower l)

instance domainEntryMatchesDec (h dl : Option String) (d : DomainLocale) :
    Decidable (domainEntryMatches h dl d) := by
  unfold domainEntryMatches
  infer_instance

/-- "Iterates the configured domain list in configuration order and returns
the first entry for which ..." — explicit first-match recursion. -/
def firstMatch (p : DomainLocale → Prop) [DecidablePred p] :
    List DomainLocale → Option DomainLocale
  | [] => none
  | d :: rest => if p d then some d else firstMatch p rest

/-- Reference definition of the domain resolver exactly as the claim words
it (hostname lowercased before comparison). -/
def detectDomainLocaleClaim (g : Option I18nConfig) (hostname : Option String)
    (detectedLocale : Option String) : Option DomainLocale :=
  match g with
  | none => none
  | some i18n =>
    match i18n.domains with
    | none => none
    | some domains => firstMatch (specDomainEntryMatches hostname detectedLocale) domains

/-- The domain resolver with the hostname comparison as the source actually
performs it (verbatim hostname against the stripped lowercased domain). -/
def detectDomainLocaleAmended (g : Option I18nConfig) (hostname : Option String)
    (detectedLocale : Option String) : Option DomainLocale :=
  match g with
  | none => none
  | some i18n =>
    match i18n.domains with
    | none => none
    | some domains => firstMatch (domainEntryMatches hostname detectedLocale) domains

/-! ## Concrete fixtures used by witnesses and counterexamples -/

/-- A Language Matcher that never matches (e.g. no Accept-Language header
usable). -/
def accNone : Option String → List String → Option String := fun _ _ => none

/-- A Language Matcher that matches `"fr"`. -/
def accFr : Option String → List String → Option String := fun _ _ => some "fr"

/-- A concrete URL-rewrite collaborator. -/
def cnuApp : String → String → String := fun u p => u ++ p

/-- Scenario C configuration: two domains, `b.com` owning `fr`. -/
def cfgScenC : I18nConfig :=
  ⟨["en", "fr"], "en", none, some [⟨"a.com", "en", none, none⟩, ⟨"b.com", "fr", some ["fr"], none⟩]⟩

/-- Scenario C request: host `a.com`, root path, Accept-Language `fr`. -/
def evScenC : InternalEvent := ⟨"/", "https://a.com/", some "a.com", some "fr", none⟩

/-- Configuration whose sole locale is spelled in upper case. -/
def cfgUpper : I18nConfig := ⟨["EN"], "EN", none, none⟩

/-- Configuration with one domain, for the hostname-case counterexample. -/
def cfgHostCase : I18nConfig := ⟨["en"], "en", none, some [⟨"a.com", "en", none, none⟩]⟩

/-- Configuration with a domain whose default locale `zz` is outside the
configured locale list. -/
def cfgZZ : I18nConfig := ⟨["en"], "en", none, some [⟨"x.com", "zz", none, none⟩]⟩

/-- Configuration with locale detection disabled. -/
def cfgLD : I18nConfig := ⟨["en"], "en", some false, none⟩

/-- A request at the root path with no signals. -/
def evPlain : InternalEvent := ⟨"/", "u", none, none, none⟩

/-- Configuration with a `fr` domain whose default locale is configured. -/
def cfgFrDom : I18nConfig :=
  ⟨["en", "fr"], "en", none, some [⟨"fr.example.com", "fr", none, none⟩]⟩

/-- A root request on the `fr` host. -/
def evFrHost : InternalEvent :=
  ⟨"/", "https://fr.example.com/", some "fr.example.com", none, none⟩

/-- A two-locale configuration without domains. -/
def cfgNoDomains : I18nConfig := ⟨["en", "fr"], "en", none, none⟩

/-- A root request carrying only a `NEXT_LOCALE=fr` cookie. -/
def evCookieFr : InternalEvent := ⟨"/", "u", none, none, some "fr"⟩

/-! ## Helper lemmas -/

/-- `domainMatches` decides the propositional source predicate. -/
theorem domainMatches_iff_entry (h dl : Option String) (d : DomainLocale) :
    domainMatches h (dl.map jsToLower) d = true ↔ domainEntryMatches h dl d := by
  cases hl : d.locales <;>
    simp [domainMatches, domainEntryMatches, hl, Bool.or_eq_true, beq_iff_eq,
      List.any_eq_true, or_assoc]

/-- `List.find?` over the boolean match agrees with first-match recursion
over the propositional match. -/
theorem find?_domainMatches_eq_firstMatch (h dl : Option String)
    (domains : List DomainLocale) :
    domains.find? (domainMatches h (dl.map jsToLower)) =
      firstMatch (domainEntryMatches h dl) domains := by
  induction domains with
  | nil => rfl
  | cons d rest ih =>
    by_cases hd : domainEntryMatches h dl d
    · rw [List.find?_cons_of_pos _ ((domainMatches_iff_entry h dl d).mpr hd)]
      simp [firstMatch, hd]
    · rw [List.find?_cons_of_neg _ (by simpa [domainMatches_iff_entry h dl d] using hd)]
      simp [firstMatch, hd, ih]

/-! ## C1 -/

/-- C1: `detectLocale` coincides with the specification's reference
definition — domain lookup by hostname only, fixed-locale fast path when
`localeDetection === false` (in particular returning exactly
`i18n.defaultLocale` when additionally no domain matched), and otherwise
the first defined value among domain default, cookie locale, header match
and configured default, in that order. -/
theorem detectLocale_eq_spec (g : Option I18nConfig)
    (accept : Option String → List String → Option String)
    (ev : InternalEvent) (i18n : I18nConfig) :
    detectLocale g accept ev i18n = detectLocaleSpec g accept ev i18n ∧
      (i18n.localeDetection = some false → detectDomainLocale g ev.host none = none →
        detectLocale g accept ev i18n = i18n.defaultLocale) := by
  constructor
  · cases hdo : detectDomainLocale g ev.host none <;>
      cases hco : getLocaleFromCookie g ev.cookieNextLocale <;>
        cases hac : accept ev.acceptLanguageHeader i18n.locales <;>
          by_cases hld : i18n.localeDetection = some false <;>
            simp [detectLocale, detectLocaleSpec, hdo, hco, hac, hld, List.findSome?]
  · intro h1 h2
    simp [detectLocale, h1, h2]

/-- Witness for C1 at a concrete input: with detection disabled and no
domain configured, the result is exactly the default locale. -/
theorem detectLocale_eq_spec_witness :
    detectLocale (some cfgLD) accNone evPlain cfgLD = cfgLD.defaultLocale :=
  (detectLocale_eq_spec (some cfgLD) accNone evPlain cfgLD).2 rfl rfl

/-! ## C4 -/

/-- C4 counterexample: the claim lowercases the request hostname before the
comparison, the source compares it verbatim.  With domain `a.com`
configured and hostname `A.com`, the claim's reference resolver matches but
the source returns `undefined`. -/
theorem detectDomainLocale_hostname_case_counterexample :
    detectDomainLocale (some cfgHostCase) (some "A.com") none = none ∧
      detectDomainLocaleClaim (some cfgHostCase) (some "A.com") none =
        some ⟨"a.com", "en", none, none⟩ := by
  constructor
  · decide
  · decide

/-- C4 amended: `detectDomainLocale` iterates the configured domain list in
configuration order and returns the first entry matched by hostname
(compared **verbatim**, not lowercased, against the entry's domain with any
trailing port stripped and lowercased), or by lowercased `detectedLocale`
against the lowercased `defaultLocale`, or by lowercased membership in the
entry's optional `locales`; it returns `undefined` when no domains are
configured or none match. -/
theorem detectDomainLocale_eq_amended (g : Option I18nConfig)
    (hostname detectedLocale : Option String) :
    detectDomainLocale g hostname detectedLocale =
      detectDomainLocaleAmended g hostname detectedLocale := by
  cases g with
  | none => rfl
  | some i18n =>
    cases hds : i18n.domains with
    | none => simp [detectDomainLocale, detectDomainLocaleAmended, hds]
    | some domains =>
      simp only [detectDomainLocale, detectDomainLocaleAmended, hds]
      exact find?_domainMatches_eq_firstMatch hostname detectedLocale domains

/-! ## C5 -/

/-- C5: with i18n unconfigured, `localizePath` is the identity on the raw
path and `handleLocaleRedirect` never redirects; moreover
`handleLocaleRedirect` returns `false` whenever i18n is unconfigured,
locale detection is disabled, or the raw path is not exactly `"/"`. -/
theorem unconfigured_and_guard_passthrough
    (accept : Option String → List String → Option String)
    (cnu : String → String → String) (ev : InternalEvent) :
    localizePath none accept ev = some ev.rawPath ∧
      handleLocaleRedirect none accept cnu ev = none ∧
      ∀ i18n : I18nConfig, (i18n.localeDetection = some false ∨ ev.rawPath ≠ "/") →
        handleLocaleRedirect (some i18n) accept cnu ev = none := by
  refine ⟨rfl, rfl, fun i18n h => ?_⟩
  simp only [handleLocaleRedirect]
  rw [if_pos h]

/-- Witness for C5: a deep path never triggers the redirect check. -/
theorem unconfigured_and_guard_passthrough_witness :
    handleLocaleRedirect (some cfgScenC) accFr cnuApp
      ⟨"/deep/path", "u", none, none, none⟩ = none :=
  (unconfigured_and_guard_passthrough accFr cnuApp
      ⟨"/deep/path", "u", none, none, none⟩).2.2 cfgScenC (Or.inr (by decide))

/-! ## C3 -/

/-- C3: every redirect emitted by `handleLocaleRedirect` — from either
branch — has exactly the wire shape: type `"core"`, status 307, a
`Location` header, an empty body and `isBase64Encoded` false. -/
theorem handleLocaleRedirect_shape (g : Option I18nConfig)
    (accept : Option String → List String → Option String)
    (cnu : String → String → String) (ev : InternalEvent) (r : InternalResult)
    (h : handleLocaleRedirect g accept cnu ev = some r) :
    r.type = "core" ∧ r.statusCode = 307 ∧ r.body = [] ∧ r.isBase64Encoded = false := by
  cases g with
  | none => exact absurd h (by simp [handleLocaleRedirect])
  | some i18n =>
    simp only [handleLocaleRedirect] at h
    split at h
    · exact absurd h (by simp)
    · split at h
      · next r' heq =>
          injection h with h2
          subst h2
          split at heq
          · split at heq
            · injection heq with h3
              subst h3
              exact ⟨rfl, rfl, rfl, rfl⟩
            · exact absurd heq (by simp)
          · exact absurd heq (by simp)
      · split at h
        · injection h with h2
          subst h2
          exact ⟨rfl, rfl, rfl, rfl⟩
        · exact absurd h (by simp)

/-- Witness for C3: the scenario-C redirect has the required shape. -/
theorem handleLocaleRedirect_shape_witness :
    InternalResult.type ⟨"core", 307, "https://b.com/", [], false⟩ = "core" ∧
      InternalResult.statusCode ⟨"core", 307, "https://b.com/", [], false⟩ = 307 ∧
      InternalResult.body ⟨"core", 307, "https://b.com/", [], false⟩ = [] ∧
      InternalResult.isBase64Encoded ⟨"core", 307, "https://b.com/", [], false⟩ = false :=
  handleLocaleRedirect_shape (some cfgScenC) accFr cnuApp evScenC
    ⟨"core", 307, "https://b.com/", [], false⟩ (by decide)

/-! ## C2 -/

/-- C2: when both the hostname-keyed and the locale-keyed domain lookups
resolve and the target differs (different domain, or the preferred locale
is not the preferred domain's default), `handleLocaleRedirect` returns the
domain-canonicalization redirect
`{scheme}://{preferredDomain.domain}/{segment}` — scheme `http` iff
`preferredDomain.http` is truthy, segment empty iff the preferred locale is
the preferred domain's default — suppressing the locale branch. -/
theorem handleLocaleRedirect_domain_redirect
    (accept : Option String → List String → Option String)
    (cnu : String → String → String) (i18n : I18nConfig) (ev : InternalEvent)
    (pl : String) (dl pd : DomainLocale)
    (hld : i18n.localeDetection ≠ some false)
    (hpath : ev.rawPath = "/")
    (hacc : accept ev.acceptLanguageHeader i18n.locales = some pl)
    (hdl : detectDomainLocale (some i18n) ev.host none = some dl)
    (hpd : detectDomainLocale (some i18n) none (some pl) = some pd)
    (hne : pd.domain ≠ dl.domain ∨ pd.defaultLocale ≠ pl) :
    handleLocaleRedirect (some i18n) accept cnu ev =
      some { type := "core", statusCode := 307,
             location := ("http" ++ if pd.http = some true then "" else "s") ++
               "://" ++ pd.domain ++ "/" ++ (if pd.defaultLocale = pl then "" else pl),
             body := [], isBase64Encoded := false } := by
  simp only [handleLocaleRedirect]
  rw [if_neg (by simp [hld, hpath])]
  simp only [hacc, hdl, hpd, jsStr, emptyReadableStream]
  rcases hne with hne | hne
  · by_cases hpl : pd.defaultLocale = pl <;> simp [hne, hpl]
  · simp [hne]

/-- Witness for C2, scenario C: host `a.com`, Accept-Language `fr` —
redirect 307 to `https://b.com/`. -/
theorem handleLocaleRedirect_domain_redirect_witness :
    accFr evScenC.acceptLanguageHeader cfgScenC.locales = some "fr" ∧
      handleLocaleRedirect (some cfgScenC) accFr cnuApp evScenC =
        some ⟨"core", 307, "https://b.com/", [], false⟩ :=
  ⟨rfl,
    (handleLocaleRedirect_domain_redirect accFr cnuApp cfgScenC evScenC "fr"
        ⟨"a.com", "en", none, none⟩ ⟨"b.com", "fr", some ["fr"], none⟩
        (by decide) rfl rfl (by decide) (by decide)
        (Or.inl (by decide))).trans (by decide)⟩

/-! ## String-splitting helper lemmas -/

/-- Rebuilding a string from its character list is the identity. -/
theorem asString_toList (s : String) : s.toList.asString = s := rfl

/-- A character list containing `'/'` splits into at least two pieces. -/
theorem splitOn_length_two_le (l : List Char) (h : '/' ∈ l) :
    2 ≤ (l.splitOn '/').length := by
  induction l with
  | nil => cases h
  | cons x xs ih =>
    rcases List.mem_cons.mp h with h1 | h1
    · subst h1
      simp only [List.splitOn, List.splitOnP_cons, beq_self_eq_true, if_pos]
      cases hxs : xs.splitOnP (· == '/') with
      | nil => exact absurd hxs (List.splitOnP_ne_nil (· == '/') xs)
      | cons a b => simp
    · by_cases hx : x = '/'
      · subst hx
        simp only [List.splitOn, List.splitOnP_cons, beq_self_eq_true, if_pos]
        cases hxs : xs.splitOnP (· == '/') with
        | nil => exact absurd hxs (List.splitOnP_ne_nil (· == '/') xs)
        | cons a b => simp
      · have hih := ih h1
        simp only [List.splitOn, List.splitOnP_cons] at hih ⊢
        rw [if_neg (by simp [hx])]
        simpa [List.length_modifyHead] using hih

/-- Splitting `"/" ++ d ++ "/" ++ rest` on `'/'` puts `d` at index 1 when
`d` contains no slash. -/
theorem jsSplit_index_one_prepend (d rest : String)
    (hnos : ∀ ch ∈ d.toList, ch ≠ '/') :
    (jsSplit (("/" ++ d) ++ ("/" ++ rest)) '/')[1]? = some d := by
  have h1 : (("/" ++ d) ++ ("/" ++ rest)).toList = '/' :: (d.toList ++ '/' :: rest.toList) := by
    simp [String.toList]
  have h2 : (d.toList ++ '/' :: rest.toList).splitOnP (· == '/') =
      d.toList :: rest.toList.splitOnP (· == '/') :=
    List.splitOnP_first (· == '/') d.toList (fun x hx => by simp [hnos x hx]) '/'
      (by simp) rest.toList
  simp only [jsSplit, List.splitOn, h1, List.splitOnP_cons, beq_self_eq_true, if_pos, h2]
  simp
  rfl

/-- A locale returned by the cookie extractor is a configured locale. -/
theorem getLocaleFromCookie_mem (i18n : I18nConfig) (ck : Option String) (c : String)
    (h : getLocaleFromCookie (some i18n) ck = some c) : c ∈ i18n.locales := by
  unfold getLocaleFromCookie at h
  cases ck with
  | none => cases h
  | some s =>
    simp only at h
    split at h
    · cases h
    · exact List.mem_of_find?_eq_some h

/-- A domain returned by the resolver is one of the configured domains. -/
theorem detectDomainLocale_mem (i18n : I18nConfig) (h dl : Option String)
    (d : DomainLocale) (hd : detectDomainLocale (some i18n) h dl = some d) :
    d ∈ i18n.domains.getD [] := by
  simp only [detectDomainLocale] at hd
  cases hds : i18n.domains with
  | none => rw [hds] at hd; cases hd
  | some ds =>
    rw [hds] at hd
    simpa using List.mem_of_find?_eq_some hd

/-- With neither a hostname nor a detected locale, the resolver matches no
domain. -/
theorem detectDomainLocale_none_none (g : Option I18nConfig) :
    detectDomainLocale g none none = none := by
  cases g with
  | none => rfl
  | some i18n =>
    cases hds : i18n.domains with
    | none => simp [detectDomainLocale, hds]
    | some ds =>
      simp only [detectDomainLocale, hds, Option.map_none']
      refine List.find?_eq_none.mpr fun d _ => ?_
      cases hl : d.locales <;>
        simp [domainMatches, hl, Bool.or_eq_true, beq_iff_eq, List.any_eq_true]

/-! ## C6 -/

/-- C6 counterexample: on a raw path with no `/` the source evaluates
`path.split("/")[1].toLowerCase()` on `undefined` and throws; the embedding
reports the fault as `none`.  The claim's "every rawPath string" is
therefore false. -/
theorem localizePath_fault_counterexample :
    localizePath (some cfgUpper) accNone ⟨"about", "u", none, none, none⟩ = none ∧
      isLocalizedPath (some cfgUpper) "about" = none := by
  exact ⟨by decide, by decide⟩

/-- C6 amended: no operation faults provided the raw path contains a `/`
(as every HTTP raw path does).  `detectLocale`, `detectDomainLocale` and
`handleLocaleRedirect` are total for all inputs by construction; the two
path operations are fault-free exactly when `path.split("/")[1]` exists. -/
theorem operations_never_fault (g : Option I18nConfig)
    (accept : Option String → List String → Option String)
    (ev : InternalEvent) (h : '/' ∈ ev.rawPath.toList) :
    (isLocalizedPath g ev.rawPath).isSome = true ∧
      (localizePath g accept ev).isSome = true := by
  cases g with
  | none => exact ⟨rfl, rfl⟩
  | some i18n =>
    have h2 : 1 < (jsSplit ev.rawPath '/').length := by
      have := splitOn_length_two_le ev.rawPath.toList h
      simpa [jsSplit] using this
    have h3 : (jsSplit ev.rawPath '/')[1]? = some ((jsSplit ev.rawPath '/')[1]) :=
      List.getElem?_eq_getElem h2
    refine ⟨by simp [isLocalizedPath, h3], ?_⟩
    by_cases hm : jsToLower ((jsSplit ev.rawPath '/')[1]) ∈ i18n.locales <;>
      simp [localizePath, isLocalizedPath, h3, hm]

/-- Witness for C6 at a concrete slash-containing path. -/
theorem operations_never_fault_witness :
    (localizePath (some cfgUpper) accNone ⟨"/a", "u", none, none, none⟩).isSome = true :=
  (operations_never_fault (some cfgUpper) accNone ⟨"/a", "u", none, none, none⟩
    (by decide)).2

/-! ## C7 -/

/-- C7 counterexample: a configured domain's `defaultLocale` (`zz`) flows
out of `detectLocale` even though it is neither in `locales` nor the
configured `defaultLocale`, although `defaultLocale ∈ locales` holds. -/
theorem detectLocale_escapes_counterexample :
    cfgZZ.defaultLocale ∈ cfgZZ.locales ∧
      detectLocale (some cfgZZ) accNone ⟨"/", "u", some "x.com", none, none⟩ cfgZZ = "zz" ∧
      "zz" ∉ cfgZZ.locales ∧ "zz" ≠ cfgZZ.defaultLocale := by
  refine ⟨by decide, by decide, by decide, by decide⟩

/-- C7 amended: `detectLocale` returns a configured locale provided,
additionally, every configured domain's `defaultLocale` is itself in
`locales` (the Language Matcher contract — its result is drawn from the
supplied locale list — is assumed as stated in the spec's interface). -/
theorem detectLocale_mem_locales (i18n : I18nConfig)
    (accept : Option String → List String → Option String) (ev : InternalEvent)
    (hdef : i18n.defaultLocale ∈ i18n.locales)
    (hacc : ∀ r, accept ev.acceptLanguageHeader i18n.locales = some r → r ∈ i18n.locales)
    (hdom : ∀ d ∈ i18n.domains.getD [], d.defaultLocale ∈ i18n.locales) :
    detectLocale (some i18n) accept ev i18n ∈ i18n.locales := by
  unfold detectLocale
  cases hd : detectDomainLocale (some i18n) ev.host none with
  | some d =>
    have hmem := hdom d (detectDomainLocale_mem i18n ev.host none d hd)
    split <;> simpa using hmem
  | none =>
    split
    · exact hdef
    · cases hck : getLocaleFromCookie (some i18n) ev.cookieNextLocale with
      | some c => simpa using getLocaleFromCookie_mem i18n ev.cookieNextLocale c hck
      | none =>
        cases hac : accept ev.acceptLanguageHeader i18n.locales with
        | some p => simpa using hacc p hac
        | none => simpa using hdef

/-- Witness for C7: host-matched domain default `fr` is a configured
locale. -/
theorem detectLocale_mem_locales_witness :
    detectLocale (some cfgFrDom) accNone evFrHost cfgFrDom ∈ cfgFrDom.locales :=
  detectLocale_mem_locales cfgFrDom accNone evFrHost (by decide)
    (fun r hr => by simp [accNone] at hr) (by decide)

/-! ## C8 -/

/-- C8 counterexample: with configured locale `EN`, the path `/en/x` has a
first segment matching `EN` case-insensitively, yet `isLocalizedPath` is
false (the source lowercases only the path segment, not the configured
locales) and `localizePath` does not return the path unchanged. -/
theorem isLocalizedPath_case_counterexample :
    (jsToLower "en" = jsToLower "EN" ∧ "EN" ∈ cfgUpper.locales) ∧
      isLocalizedPath (some cfgUpper) "/en/x" = some false ∧
      localizePath (some cfgUpper) accNone ⟨"/en/x", "u", none, none, none⟩ =
        some "/EN/en/x" := by
  refine ⟨⟨by decide, by decide⟩, by decide, by decide⟩

/-- C8 amended: `isLocalizedPath(path)` is true iff `path.split("/")[1]`
exists and its **lowercased** form is verbatim a member of the configured
locales (one-sided case folding); consequently `localizePath` leaves such
paths unchanged. -/
theorem isLocalizedPath_iff_amended (i18n : I18nConfig) (p : String)
    (accept : Option String → List String → Option String) (ev : InternalEvent) :
    (isLocalizedPath (some i18n) p = some true ↔
      ∃ seg, (jsSplit p '/')[1]? = some seg ∧ jsToLower seg ∈ i18n.locales) ∧
      (∀ seg, (jsSplit ev.rawPath '/')[1]? = some seg → jsToLower seg ∈ i18n.locales →
        localizePath (some i18n) accept ev = some ev.rawPath) := by
  constructor
  · cases hs : (jsSplit p '/')[1]? with
    | none => simp [isLocalizedPath, hs]
    | some seg => simp [isLocalizedPath, hs]
  · intro seg hseg hmem
    simp [localizePath, isLocalizedPath, hseg, hmem]

/-- Witness for C8: `/en/x` with configured locale `en` passes through
unchanged. -/
theorem isLocalizedPath_iff_amended_witness :
    localizePath (some cfgHostCase) accNone ⟨"/en/x", "u", none, none, none⟩ =
      some "/en/x" :=
  (isLocalizedPath_iff_amended cfgHostCase "/en/x" accNone
      ⟨"/en/x", "u", none, none, none⟩).2 "en" (by decide) (by decide)

/-! ## C9 -/

/-- C9 counterexample: with configured locale `EN` (upper case), the
localized output `/EN/foo` is not recognised as localized, so a second
application prepends again — idempotence fails as universally stated. -/
theorem localizePath_not_idempotent_counterexample :
    localizePath (some cfgUpper) accNone ⟨"/foo", "u", none, none, none⟩ =
        some "/EN/foo" ∧
      localizePath (some cfgUpper) accNone ⟨"/EN/foo", "u", none, none, none⟩ =
        some "/EN/EN/foo" ∧
      ("/EN/EN/foo" : String) ≠ "/EN/foo" := by
  refine ⟨by decide, by decide, by decide⟩

/-- C9 amended: `localizePath` is idempotent for raw paths beginning with
`/`, provided the detected locale contains no `/` and its lowercased form
is a configured locale (e.g. whenever all locale signals are lowercase
members of `locales`). -/
theorem localizePath_idem (i18n : I18nConfig)
    (accept : Option String → List String → Option String) (ev : InternalEvent)
    (out : String)
    (hout : localizePath (some i18n) accept ev = some out)
    (hpath : ∃ r : String, ev.rawPath = "/" ++ r)
    (hnos : ∀ ch ∈ (detectLocale (some i18n) accept ev i18n).toList, ch ≠ '/')
    (hmem : jsToLower (detectLocale (some i18n) accept ev i18n) ∈ i18n.locales) :
    localizePath (some i18n) accept { ev with rawPath := out } = some out := by
  obtain ⟨rest, hr⟩ := hpath
  cases his : isLocalizedPath (some i18n) ev.rawPath with
  | none => simp [localizePath, his] at hout
  | some b =>
    cases b with
    | true =>
      have hout' : ev.rawPath = out := by simpa [localizePath, his] using hout
      subst hout'
      have hev : ({ ev with rawPath := ev.rawPath } : InternalEvent) = ev := rfl
      rw [hev]
      simp [localizePath, his]
    | false =>
      have hout' : out = "/" ++ detectLocale (some i18n) accept ev i18n ++ ev.rawPath := by
        have := hout
        simp [localizePath, his] at this
        exact this.symm
      have hidx : (jsSplit out '/')[1]? =
          some (detectLocale (some i18n) accept ev i18n) := by
        rw [hout', hr]
        exact jsSplit_index_one_prepend (detectLocale (some i18n) accept ev i18n) rest hnos
      have his2 : isLocalizedPath (some i18n) out = some true := by
        simp [isLocalizedPath, hidx, hmem]
      simp [localizePath, his2]

/-- Witness for C9 at a concrete input: relocalizing `/en/foo` is a
no-op. -/
theorem localizePath_idem_witness :
    localizePath (some cfgNoDomains) accNone
        { (⟨"/foo", "u", none, none, none⟩ : InternalEvent) with rawPath := "/en/foo" } =
      some "/en/foo" :=
  localizePath_idem cfgNoDomains accNone ⟨"/foo", "u", none, none, none⟩ "/en/foo"
    (by decide) ⟨"foo", rfl⟩ (by decide) (by decide)

/-! ## C10 -/

/-- C10: when the Language Matcher yields no preferred locale, the
locale-keyed domain lookup resolves nothing, the domain-canonicalization
branch is unreachable, and any redirect emitted is the locale-prefix
rewrite of the current URL — its `Location` never embeds an undefined
preferred locale. -/
theorem no_preferred_locale_no_domain_branch (i18n : I18nConfig)
    (accept : Option String → List String → Option String)
    (cnu : String → String → String) (ev : InternalEvent)
    (hacc : accept ev.acceptLanguageHeader i18n.locales = none) :
    detectDomainLocale (some i18n) none none = none ∧
      ∀ r, handleLocaleRedirect (some i18n) accept cnu ev = some r →
        r.location = cnu ev.url ("/" ++ detectLocale (some i18n) accept ev i18n) := by
  refine ⟨detectDomainLocale_none_none (some i18n), fun r h => ?_⟩
  simp only [handleLocaleRedirect] at h
  split at h
  · exact absurd h (by simp)
  · rw [hacc, detectDomainLocale_none_none (some i18n)] at h
    cases hdo : detectDomainLocale (some i18n) ev.host none with
    | none =>
      rw [hdo] at h
      split at h
      · rename_i r' heq
        exact absurd heq (by simp)
      · split at h
        · injection h with h2
          subst h2
          rfl
        · exact absurd h (by simp)
    | some dl =>
      rw [hdo] at h
      split at h
      · rename_i r' heq
        exact absurd heq (by simp)
      · split at h
        · injection h with h2
          subst h2
          rfl
        · exact absurd h (by simp)

/-- Witness for C10: cookie-driven redirect rewrites the current URL with
the detected locale prefix. -/
theorem no_preferred_locale_no_domain_branch_witness :
    InternalResult.location ⟨"core", 307, "u/fr", [], false⟩ =
      cnuApp evCookieFr.url ("/" ++ detectLocale (some cfgNoDomains) accNone evCookieFr cfgNoDomains) :=
  (no_preferred_locale_no_domain_branch cfgNoDomains accNone cnuApp evCookieFr rfl).2
    ⟨"core", 307, "u/fr", [], false⟩ (by decide)
